import Mathlib

/-!
Shallow embedding of aSocket/Snow (src/snow.js), a decorative snowfall
overlay.  Numbers are modelled as exact rationals (JS number literals are
taken at their literal rational value).  A snowflake's DOM element is
modelled by its inline style entries: `left` and `top` are stored, as in the
source, only as the element's own style strings (`List Char`, a "…px"
value), together with the blur filter value and an attached-to-the-tree
flag.  `Math.sin`, `Date.now` and `Math.random` are environment inputs
supplied through an `Env` record.
-/

namespace Snow

/-! ### Exact numeric style-string codec

The source stores a snowflake's position only in `element.style.top` /
`element.style.left` (`value + 'px'`) and reads it back with
`Number(style.replace('px', ''))`.  For finite JS numbers the
number→string→number round trip is exact, so the model serialises the
rational exactly (as `num/den` digits followed by `px`) and parses it back
with an exact parser; `replace('px','')` is modelled literally as
replace-first-occurrence. -/

/-- One decimal digit as a character, `'0'`..`'9'`. -/
def digitChar (d : ℕ) : Char := Char.ofNat (48 + d)

/-- Numeric value of a digit character. -/
def charVal (c : Char) : ℕ := c.toNat - 48

/-- Little-endian decimal digits of `n`, with explicit fuel so that the
definition is structurally recursive (hence kernel-reducible). -/
def toDigitsAux : ℕ → ℕ → List ℕ
  | 0, _ => []
  | _ + 1, 0 => []
  | fuel + 1, n + 1 => ((n + 1) % 10) :: toDigitsAux fuel ((n + 1) / 10)

/-- Value of a little-endian digit list. -/
def ofDigitsLSB : List ℕ → ℕ
  | [] => 0
  | d :: ds => d + 10 * ofDigitsLSB ds

theorem ofDigitsLSB_toDigitsAux :
    ∀ fuel n, n ≤ fuel → ofDigitsLSB (toDigitsAux fuel n) = n
  | 0, 0, _ => rfl
  | 0, n + 1, h => absurd h (by omega)
  | _ + 1, 0, _ => rfl
  | fuel + 1, n + 1, h => by
    have hlt : (n + 1) / 10 < n + 1 := Nat.div_lt_self (Nat.succ_pos n) (by omega)
    have hrec := ofDigitsLSB_toDigitsAux fuel ((n + 1) / 10) (by omega)
    simp only [toDigitsAux, ofDigitsLSB, hrec]
    omega

theorem toDigitsAux_lt :
    ∀ fuel n d, d ∈ toDigitsAux fuel n → d < 10
  | 0, _, _, h => by simp [toDigitsAux] at h
  | _ + 1, 0, _, h => by simp [toDigitsAux] at h
  | fuel + 1, n + 1, d, h => by
    simp only [toDigitsAux, List.mem_cons] at h
    rcases h with h | h
    · omega
    · exact toDigitsAux_lt fuel ((n + 1) / 10) d h

/-- Decimal character string of a natural number (JS `String(n)` for
naturals), most significant digit first. -/
def natChars (n : ℕ) : List Char :=
  if n = 0 then ['0'] else (toDigitsAux n n).reverse.map digitChar

/-- Parse a digit string back to a natural number. -/
def parseNatChars (l : List Char) : ℕ := ofDigitsLSB ((l.map charVal).reverse)

theorem charVal_digitChar : ∀ d, d < 10 → charVal (digitChar d) = d := by decide

theorem natChars_mem :
    ∀ n c, c ∈ natChars n → ∃ d, d < 10 ∧ c = digitChar d := by
  intro n c hc
  by_cases h : n = 0
  · subst h
    have hc0 : c = '0' := by simpa [natChars] using hc
    exact ⟨0, by omega, by rw [hc0]; decide⟩
  · simp only [natChars, if_neg h, List.mem_map, List.mem_reverse] at hc
    obtain ⟨d, hd, rfl⟩ := hc
    exact ⟨d, toDigitsAux_lt n n d hd, rfl⟩

theorem parseNatChars_natChars (n : ℕ) : parseNatChars (natChars n) = n := by
  by_cases h : n = 0
  · subst h; decide
  · simp only [natChars, if_neg h, parseNatChars, List.map_reverse, List.map_map,
      List.reverse_reverse]
    have hmap : (toDigitsAux n n).map (charVal ∘ digitChar) = toDigitsAux n n := by
      rw [List.map_congr_left, List.map_id]
      intro d hd
      exact charVal_digitChar d (toDigitsAux_lt n n d hd)
    rw [hmap, ofDigitsLSB_toDigitsAux n n le_rfl]

/-- Decimal character string of an integer (sign, then digits). -/
def intChars : ℤ → List Char
  | Int.ofNat n => natChars n
  | Int.negSucc n => '-' :: natChars (n + 1)

/-- Parse a (possibly sign-prefixed) digit string back to an integer. -/
def parseIntChars (l : List Char) : ℤ :=
  match l with
  | [] => 0
  | c :: rest => if c = '-' then -(parseNatChars rest : ℤ) else (parseNatChars (c :: rest) : ℤ)

theorem digitChar_ne :
    ∀ d, d < 10 → digitChar d ≠ '-' ∧ digitChar d ≠ '/' ∧ digitChar d ≠ 'p' ∧ digitChar d ≠ 'x' := by
  decide

theorem natChars_ne_nil : ∀ n, natChars n ≠ []
  | 0 => by decide
  | n + 1 => by
    simp only [natChars, if_neg (Nat.succ_ne_zero n), toDigitsAux]
    simp

theorem parseIntChars_intChars (i : ℤ) : parseIntChars (intChars i) = i := by
  cases i with
  | ofNat n =>
    simp only [intChars]
    rcases hn : natChars n with _ | ⟨c, rest⟩
    · exact absurd hn (natChars_ne_nil n)
    · have hc : c ∈ natChars n := by rw [hn]; exact List.mem_cons_self c rest
      obtain ⟨d, hd, rfl⟩ := natChars_mem n c hc
      simp only [parseIntChars, if_neg (digitChar_ne d hd).1, ← hn,
        parseNatChars_natChars]
      rfl
  | negSucc n =>
    simp only [intChars, parseIntChars, if_pos rfl, parseNatChars_natChars]
    simp [Int.negSucc_eq]

/-- Split a character list at the first `'/'` (dropping the slash). -/
def breakSlash : List Char → List Char × List Char
  | [] => ([], [])
  | c :: rest =>
    if c = '/' then ([], rest)
    else (c :: (breakSlash rest).1, (breakSlash rest).2)

theorem breakSlash_append :
    ∀ a b : List Char, '/' ∉ a → breakSlash (a ++ '/' :: b) = (a, b) := by
  intro a b
  induction a with
  | nil => intro _; simp [breakSlash]
  | cons c rest ih =>
    intro hmem
    have hc : ¬ c = '/' := fun hcon => hmem (hcon ▸ List.mem_cons_self c rest)
    have hrest : '/' ∉ rest := fun hcon => hmem (List.mem_cons_of_mem c hcon)
    simp [breakSlash, hc, ih hrest]

/-- JS `String.prototype.replace(pat, '')` with a plain-string pattern:
remove the first occurrence of `pat`, if any. -/
def replaceFirst (pat : List Char) : List Char → List Char
  | [] => []
  | c :: rest =>
    if pat.isPrefixOf (c :: rest) then (c :: rest).drop pat.length
    else c :: replaceFirst pat rest

theorem replaceFirst_px_suffix :
    ∀ a : List Char, 'p' ∉ a → replaceFirst ['p', 'x'] (a ++ ['p', 'x']) = a := by
  intro a
  induction a with
  | nil => intro _; decide
  | cons c rest ih =>
    intro hmem
    have hc : ¬ c = 'p' := fun hcon => hmem (hcon ▸ List.mem_cons_self c rest)
    have hrest : 'p' ∉ rest := fun hcon => hmem (List.mem_cons_of_mem c hcon)
    have hbeq : (('p' : Char) == c) = false := by
      simpa using fun hcon => hc hcon.symm
    simp [replaceFirst, List.isPrefixOf, hbeq, ih hrest]

/-- Serialisation used for `element.style.left/top`: the source writes
`value + 'px'`; finite-number stringification round-trips exactly in JS, so
the model writes the rational exactly as `num/den` digits followed by
`px`. -/
def numToPx (q : ℚ) : List Char :=
  (intChars q.num ++ '/' :: natChars q.den) ++ ['p', 'x']

/-- Read-back used by the `top`/`left` getters: the source computes
`Number(style.replace('px', ''))`; the model strips the first `px`
occurrence and parses the exact `num/den` form. -/
def pxToNum (l : List Char) : ℚ :=
  let stripped := replaceFirst ['p', 'x'] l
  (parseIntChars (breakSlash stripped).1 : ℚ) / (parseNatChars (breakSlash stripped).2 : ℚ)

theorem slash_not_mem_natChars (n : ℕ) : '/' ∉ natChars n := by
  intro hmem
  obtain ⟨d, hd, hc⟩ := natChars_mem n _ hmem
  exact (digitChar_ne d hd).2.1 hc.symm

theorem slash_not_mem_intChars (i : ℤ) : '/' ∉ intChars i := by
  intro hmem
  cases i with
  | ofNat n => exact slash_not_mem_natChars n hmem
  | negSucc n =>
    simp only [intChars, List.mem_cons] at hmem
    rcases hmem with h | h
    · exact absurd h.symm (by decide)
    · exact slash_not_mem_natChars (n + 1) h

theorem p_not_mem_natChars (n : ℕ) : 'p' ∉ natChars n := by
  intro hmem
  obtain ⟨d, hd, hc⟩ := natChars_mem n _ hmem
  exact (digitChar_ne d hd).2.2.1 hc.symm

theorem p_not_mem_intChars (i : ℤ) : 'p' ∉ intChars i := by
  intro hmem
  cases i with
  | ofNat n => exact p_not_mem_natChars n hmem
  | negSucc n =>
    simp only [intChars, List.mem_cons] at hmem
    rcases hmem with h | h
    · exact absurd h.symm (by decide)
    · exact p_not_mem_natChars (n + 1) h

/-- Round trip of the style codec: reading a just-written position returns
exactly the written value (the model counterpart of JS's exact
number→string→number round trip for finite values). -/
theorem pxToNum_numToPx (q : ℚ) : pxToNum (numToPx q) = q := by
  have hp : 'p' ∉ intChars q.num ++ '/' :: natChars q.den := by
    intro hmem
    rcases List.mem_append.mp hmem with h | h
    · exact p_not_mem_intChars q.num h
    · rcases List.mem_cons.mp h with h | h
      · exact absurd h.symm (by decide)
      · exact p_not_mem_natChars q.den h
  have hs : '/' ∉ intChars q.num := slash_not_mem_intChars q.num
  simp only [pxToNum, numToPx, replaceFirst_px_suffix _ hp, breakSlash_append _ _ hs,
    parseIntChars_intChars, parseNatChars_natChars]
  exact Rat.num_div_den q

/-! ### Data model (src/snow.js)

`Element` is the DOM node backing a snowflake: its inline style stores the
position as px strings (the only place positions live), the blur filter
value, and whether the node is attached to the render tree.  `Env` supplies
the host functions `Math.sin`, `Date.now` (per call inside a tick, indexed
by the visit number) and `Math.random` (indexed by the spawn number). -/

structure Element where
  styleLeft : List Char
  styleTop : List Char
  blur : ℚ
  attached : Bool
deriving DecidableEq

/-- DOM `element.remove()`: detach the node from the render tree. -/
def Element.remove (e : Element) : Element := {e with attached := false}

/-- Snowflake class (src/snow.js lines 299-356): its whole state is its
element; positions have no shadow copy outside the element's style. -/
structure Snowflake where
  element : Element
deriving DecidableEq

/-- Snowflake constructor: creates the element with `left = x + 'px'`,
`top = y + 'px'`, the blur filter, and appends it to the container. -/
def Snowflake.make (x y blur : ℚ) : Snowflake :=
  ⟨⟨numToPx x, numToPx y, blur, true⟩⟩

/-- Getter `top`: `Number(element.style.top.replace('px', ''))`. -/
def Snowflake.top (s : Snowflake) : ℚ := pxToNum s.element.styleTop

/-- Setter `top`: `element.style.top = value + 'px'`. -/
def Snowflake.setTop (s : Snowflake) (v : ℚ) : Snowflake :=
  ⟨{s.element with styleTop := numToPx v}⟩

/-- Getter `left`: `Number(element.style.left.replace('px', ''))`. -/
def Snowflake.left (s : Snowflake) : ℚ := pxToNum s.element.styleLeft

/-- Setter `left`: `element.style.left = value + 'px'`. -/
def Snowflake.setLeft (s : Snowflake) (v : ℚ) : Snowflake :=
  ⟨{s.element with styleLeft := numToPx v}⟩

/-- Result of `getBoundingClientRect`. -/
structure Bounds where
  x : ℚ
  y : ℚ
  width : ℚ
  height : ℚ

/-- Getter `bounds` = `element.getBoundingClientRect()`.  Modelled from the
injected CSS (src/snow.js lines 58-80): a `.snowflake` is a 10px × 10px
absolutely positioned node inside the fixed full-viewport container at the
origin, so its client rect is its style position with intrinsic size
10 × 10 (the blur filter does not affect the border box). -/
def Snowflake.bounds (s : Snowflake) : Bounds := ⟨s.left, s.top, 10, 10⟩

/-- Snowflake layer configuration (the shape of `aSocketSnow.CONFIG`
entries). -/
structure Config where
  LIMIT : ℕ
  BLUR : ℚ
  FALL_RATE : ℚ
  SWAY_RATE : ℚ
deriving DecidableEq

/-- Host-environment inputs: `sin` is `Math.sin`; `timeAt k` is the value of
`Date.now()` at the k-th `getSine` call of a tick; `rand k` is the value of
`Math.random()` at the k-th spawn of an operation. -/
structure Env where
  sin : ℚ → ℚ
  timeAt : ℕ → ℚ
  rand : ℕ → ℚ

/-- `aSocketSnow.getSine(amplitude, frequency, verticalShift)` =
`amplitude * Math.sin(Date.now() * frequency) + verticalShift`. -/
def getSine (env : Env) (k : ℕ) (amplitude frequency verticalShift : ℚ) : ℚ :=
  amplitude * env.sin (env.timeAt k * frequency) + verticalShift

/-- Controller state (src/snow.js lines 153-293): configuration, the
snowflake array, the cached document dimensions, the active flag and the
tick-interval handle (modelled as a Bool: handle present or not).
`detachedElems` is ghost state recording every element removed from the
render tree, so that detachment is observable after the fact. -/
structure Controller where
  config : Config
  snowflakes : List Snowflake
  docWidth : ℚ
  docHeight : ℚ
  active : Bool
  interval : Bool
  detachedElems : List Element
deriving DecidableEq

/-- `spawn()`: push `new Snowflake(Math.random() * documentWidth, 0, body,
config.BLUR)`; `k` indexes which `Math.random()` draw this is. -/
def Controller.spawn (env : Env) (k : ℕ) (c : Controller) : Controller :=
  {c with snowflakes :=
    c.snowflakes ++ [Snowflake.make (env.rand k * c.docWidth) 0 c.config.BLUR]}

/-- Exit test of `animate()`: `bounds.x > documentWidth + bounds.width ||
bounds.y > documentHeight + bounds.height`. -/
def Controller.outOfBounds (c : Controller) (s : Snowflake) : Bool :=
  decide (s.bounds.x > c.docWidth + s.bounds.width) ||
    decide (s.bounds.y > c.docHeight + s.bounds.height)

/-- `remove(snowflake)` as invoked from `animate()`: the source splices at
`indexOf(snowflake)`, which locates the processed object (by JS object
identity) at the current loop index `i`, then detaches its element. -/
def Controller.removeAt (i : ℕ) (c : Controller) : Controller :=
  match c.snowflakes[i]? with
  | some s =>
    {c with snowflakes := c.snowflakes.eraseIdx i,
            detachedElems := c.detachedElems ++ [s.element.remove]}
  | none => c

/-- Position update of one snowflake inside `animate()`:
`left = getSine(1.0, 0.005, left + SWAY_RATE); top = top + FALL_RATE`. -/
def updateFlake (env : Env) (k : ℕ) (swayRate fallRate : ℚ) (s : Snowflake) : Snowflake :=
  let s1 := s.setLeft (getSine env k (1.0 : ℚ) (0.005 : ℚ) (s.left + swayRate))
  s1.setTop (s1.top + fallRate)

/-- One iteration of the `for (const snowflake of this.snowflakes)` loop of
`animate()`, at iterator index `i`: update the position, then test bounds,
then (on exit) remove the snowflake and spawn a replacement.  When `i` is
past the end of the array the iterator is exhausted and nothing happens. -/
def animateVisit (env : Env) (i : ℕ) (c : Controller) : Controller :=
  match c.snowflakes[i]? with
  | none => c
  | some s =>
    let s2 := updateFlake env i c.config.SWAY_RATE c.config.FALL_RATE s
    let c1 := {c with snowflakes := c.snowflakes.set i s2}
    if c.outOfBounds s2 then (c1.removeAt i).spawn env i else c1

/-- The array-iterator loop of `animate()`: the iterator yields index `i`
while `i < length` (splice-plus-push inside a visit keeps the length
constant, so the fuel `length` covers exactly the iterations that run). -/
def animateLoop (env : Env) : ℕ → ℕ → Controller → Controller
  | 0, _, c => c
  | fuel + 1, i, c =>
    if i < c.snowflakes.length then animateLoop env fuel (i + 1) (animateVisit env i c)
    else c

/-- `animate()`: animate all existing snowflakes. -/
def Controller.animate (env : Env) (c : Controller) : Controller :=
  animateLoop env c.snowflakes.length 0 c

/-- `clear()`: remove every element from the render tree, then reset the
array in one pass. -/
def Controller.clear (c : Controller) : Controller :=
  {c with detachedElems := c.detachedElems ++ c.snowflakes.map (fun s => s.element.remove),
          snowflakes := []}

/-- `stop()`: set `active = false`, clear the tick interval. -/
def Controller.stop (c : Controller) : Controller :=
  {c with active := false, interval := false}

/-- Per-snowflake body of the `resize` loop: `left = left + (width -
documentWidth); top = top + (height - documentHeight)`. -/
def resizeFlake (dw dh : ℚ) (s : Snowflake) : Snowflake :=
  let s1 := s.setLeft (s.left + dw)
  s1.setTop (s1.top + dh)

/-- `resize(width, height)`: shift every snowflake by the delta between the
new and the cached document dimensions, then update the cached
dimensions. -/
def Controller.resize (w h : ℚ) (c : Controller) : Controller :=
  {c with snowflakes := c.snowflakes.map (resizeFlake (w - c.docWidth) (h - c.docHeight)),
          docWidth := w, docHeight := h}

/-! ### Event-loop layer

`generate()` is an async loop `for (let i = length; i < LIMIT; i++) {
await delay; if (!active) return; spawn(); }`.  Following the spec's own
modelling note, a suspended run of `generate` is a pending task recorded by
its loop counter `i`; `CState` pairs the controller with the list of
pending tasks.  The host event loop is a sequence of `Op` steps applied by
`applyOp`. -/

structure CState where
  ctrl : Controller
  gens : List ℕ
deriving DecidableEq

/-- `start()`: no-op when already active; otherwise set `active = true`,
call `generate()` (which runs synchronously up to its first `await`,
creating a pending task with counter `i = snowflakes.length` when that is
below the limit), and install the tick interval. -/
def startStep (s : CState) : CState :=
  if s.ctrl.active then s
  else
    let c := {s.ctrl with active := true, interval := true}
    if c.snowflakes.length < c.config.LIMIT
    then {ctrl := c, gens := s.gens ++ [c.snowflakes.length]}
    else {ctrl := c, gens := s.gens}

/-- `stop()` as a state step. -/
def stopStep (s : CState) : CState := {s with ctrl := s.ctrl.stop}

/-- `clear()` as a state step. -/
def clearStep (s : CState) : CState := {s with ctrl := s.ctrl.clear}

/-- `spawn()` as a state step (one `Math.random()` draw). -/
def spawnCmdStep (env : Env) (s : CState) : CState :=
  {s with ctrl := s.ctrl.spawn env 0}

/-- A direct call of `generate()`: runs to its first `await`, leaving a
pending task when the count is below the limit. -/
def generateStep (s : CState) : CState :=
  if s.ctrl.snowflakes.length < s.ctrl.config.LIMIT
  then {s with gens := s.gens ++ [s.ctrl.snowflakes.length]}
  else s

/-- Resumption of the `j`-th pending `generate` task after its random
delay: abort (the `return`) when the controller has been stopped; otherwise
spawn one snowflake, increment the counter and either suspend again (when
still below the limit) or finish. -/
def genResumeStep (env : Env) (j : ℕ) (s : CState) : CState :=
  match s.gens[j]? with
  | none => s
  | some i =>
    if s.ctrl.active then
      let c := s.ctrl.spawn env 0
      if i + 1 < c.config.LIMIT
      then {ctrl := c, gens := s.gens.set j (i + 1)}
      else {ctrl := c, gens := s.gens.eraseIdx j}
    else {s with gens := s.gens.eraseIdx j}

/-- One host event-loop step: a tick of the interval timer, the resumption
of a pending population task, a window resize notification, or one of the
broadcast commands of the public surface. -/
inductive Op where
  | tick (env : Env)
  | genResume (env : Env) (j : ℕ)
  | resizeEv (w h : ℚ)
  | cmdStart
  | cmdStop
  | cmdClear
  | cmdSpawn (env : Env)

/-- Apply one event-loop step.  A tick fires only while the interval handle
is installed (`clearInterval` cancels pending firings synchronously). -/
def applyOp : Op → CState → CState
  | .tick env, s => if s.ctrl.interval then {s with ctrl := s.ctrl.animate env} else s
  | .genResume env j, s => genResumeStep env j s
  | .resizeEv w h, s => {s with ctrl := s.ctrl.resize w h}
  | .cmdStart, s => startStep s
  | .cmdStop, s => stopStep s
  | .cmdClear, s => clearStep s
  | .cmdSpawn env, s => spawnCmdStep env s

/-- Run a sequence of event-loop steps. -/
def runOps (s : CState) : List Op → CState
  | [] => s
  | op :: rest => runOps (applyOp op s) rest

/-- Controller construction (fields set, then `start()` is called from the
constructor): the moment "construction completes". -/
def constructState (cfg : Config) (w h : ℚ) : CState :=
  startStep {ctrl := ⟨cfg, [], w, h, false, false, []⟩, gens := []}

/-! ### Effect manager command dispatch -/

/-- Own data fields of a `Controller` instance: `controllers[0][name]` is
truthy for an object-valued field, and invoking it raises a `TypeError`
(none of which mutates controller state); modelled as an unspecified
(`none`) outcome. -/
def ctrlFieldNames : List String :=
  ["body", "config", "snowflakes", "document", "active", "interval"]

/-- Methods on `Controller.prototype` (what `controllers[0][name]` finds as
a callable). -/
def ctrlMethodNames : List String :=
  ["constructor", "start", "spawn", "generate", "animate", "remove", "clear",
   "stop", "resize"]

/-- `aSocketSnow.command(cmd)`: return silently when
`controllers[0][cmd]` is falsy, else call `controller[cmd]()` on every
controller in registration order.  `none` models the paths that throw or
produce non-finite numbers before completing: an empty controller list
(`controllers[0]` is undefined), `remove`/`constructor` (TypeError) and
`resize` (undefined arguments).  Inherited `Object.prototype` function
properties (e.g. `toString`) are invoked by the source but mutate nothing,
so they fall, like absent names, into the unchanged-state branch. -/
def command (env : Env) (cmd : String) (ms : List CState) : Option (List CState) :=
  match ms with
  | [] => none
  | _ :: _ =>
    if cmd ∈ ctrlFieldNames then none
    else if cmd ∈ ctrlMethodNames then
      match cmd with
      | "start" => some (ms.map startStep)
      | "stop" => some (ms.map stopStep)
      | "spawn" => some (ms.map (spawnCmdStep env))
      | "clear" => some (ms.map clearStep)
      | "generate" => some (ms.map generateStep)
      | "animate" => some (ms.map (fun s => {s with ctrl := s.ctrl.animate env}))
      | _ => none
    else some ms

/-! ### Trace predicates -/

/-- Steps the event loop produces by itself (timer firings and population
resumptions), as opposed to externally invoked operations. -/
def spontaneousB : Op → Bool
  | .tick _ => true
  | .genResume _ _ => true
  | _ => false

/-- Side condition for the corrected count invariant: no `spawn` broadcast,
and `start` only when the controller is active (where it is a no-op) or no
population task is pending (a restart racing a not-yet-aborted pending
task launches a second concurrent population loop). -/
def okOpB (s : CState) : Op → Bool
  | .cmdSpawn _ => false
  | .cmdStart => s.gens.isEmpty || s.ctrl.active
  | _ => true

/-- All steps of a trace satisfy `okOpB` at the state they fire in. -/
def okTraceB (s : CState) : List Op → Bool
  | [] => true
  | op :: rest => okOpB s op && okTraceB (applyOp op s) rest

/-! ### Concrete instances for scenarios -/

/-- Environment with `Math.sin = 0`, `Date.now = 0`, `Math.random = 0`. -/
def env0 : Env := ⟨fun _ => 0, fun _ => 0, fun _ => 0⟩

/-- Configuration of the C2 scenario: limit 1, fall rate 10, no sway. -/
def cfgC2 : Config := ⟨1, 4, 10, 0⟩

/-- C2 scenario start state: constructed controller over a 100 × 100
viewport whose single staggered spawn has fired (one snowflake at vertical
position 0, horizontal `0 * 100 = 0`). -/
def sC2 : CState := runOps (constructState cfgC2 100 100) [Op.genResume env0 0]

/-- The C2 scenario state after `n` animation ticks. -/
def tickN (n : ℕ) : CState := runOps sC2 (List.replicate n (Op.tick env0))

end Snow

attribute [local semireducible] Rat.mul Rat.inv Rat.add Rat.sub Rat.ofScientific

namespace Snow

/-! ### Helper lemmas -/

theorem Snowflake.top_setTop (s : Snowflake) (v : ℚ) : (s.setTop v).top = v :=
  pxToNum_numToPx v

theorem Snowflake.left_setLeft (s : Snowflake) (v : ℚ) : (s.setLeft v).left = v :=
  pxToNum_numToPx v

theorem Snowflake.top_make (x y b : ℚ) : (Snowflake.make x y b).top = y :=
  pxToNum_numToPx y

theorem Snowflake.left_make (x y b : ℚ) : (Snowflake.make x y b).left = x :=
  pxToNum_numToPx x

theorem updateFlake_top (env : Env) (k : ℕ) (sw fl : ℚ) (s : Snowflake) :
    (updateFlake env k sw fl s).top = s.top + fl :=
  pxToNum_numToPx _

theorem updateFlake_left (env : Env) (k : ℕ) (sw fl : ℚ) (s : Snowflake) :
    (updateFlake env k sw fl s).left = getSine env k (1.0 : ℚ) (0.005 : ℚ) (s.left + sw) :=
  pxToNum_numToPx _

theorem resizeFlake_left (dw dh : ℚ) (s : Snowflake) :
    (resizeFlake dw dh s).left = s.left + dw :=
  pxToNum_numToPx _

theorem resizeFlake_top (dw dh : ℚ) (s : Snowflake) :
    (resizeFlake dw dh s).top = s.top + dh :=
  pxToNum_numToPx _

theorem animateVisit_notout (env : Env) (i : ℕ) (c : Controller) (s : Snowflake)
    (hs : c.snowflakes[i]? = some s)
    (hout : c.outOfBounds (updateFlake env i c.config.SWAY_RATE c.config.FALL_RATE s) = false) :
    (animateVisit env i c).snowflakes =
      c.snowflakes.set i (updateFlake env i c.config.SWAY_RATE c.config.FALL_RATE s) ∧
    (animateVisit env i c).detachedElems = c.detachedElems ∧
    (animateVisit env i c).config = c.config := by
  simp only [animateVisit, hs, hout]
  exact ⟨rfl, rfl, rfl⟩

theorem animateVisit_out (env : Env) (i : ℕ) (c : Controller) (s : Snowflake)
    (hs : c.snowflakes[i]? = some s)
    (hout : c.outOfBounds (updateFlake env i c.config.SWAY_RATE c.config.FALL_RATE s) = true) :
    (animateVisit env i c).snowflakes =
      (c.snowflakes.set i (updateFlake env i c.config.SWAY_RATE c.config.FALL_RATE s)).eraseIdx i
        ++ [Snowflake.make (env.rand i * c.docWidth) 0 c.config.BLUR] ∧
    (animateVisit env i c).detachedElems =
      c.detachedElems ++
        [(updateFlake env i c.config.SWAY_RATE c.config.FALL_RATE s).element.remove] ∧
    (animateVisit env i c).config = c.config := by
  have h : i < c.snowflakes.length := (List.getElem?_eq_some_iff.mp hs).1
  simp only [animateVisit, hs, hout, if_pos, Controller.spawn, Controller.removeAt,
    List.getElem?_set_self h]
  refine ⟨?_, ?_, ?_⟩ <;> trivial

theorem length_animateVisit (env : Env) (i : ℕ) (c : Controller) :
    (animateVisit env i c).snowflakes.length = c.snowflakes.length := by
  rcases hs : c.snowflakes[i]? with _ | s
  · simp [animateVisit, hs]
  · have h : i < c.snowflakes.length := (List.getElem?_eq_some_iff.mp hs).1
    rcases hout : c.outOfBounds (updateFlake env i c.config.SWAY_RATE c.config.FALL_RATE s)
    · rw [(animateVisit_notout env i c s hs hout).1, List.length_set]
    · rw [(animateVisit_out env i c s hs hout).1]
      simp only [List.length_append, List.length_eraseIdx, List.length_set,
        List.length_cons, List.length_nil, if_pos h]
      omega

theorem config_animateVisit (env : Env) (i : ℕ) (c : Controller) :
    (animateVisit env i c).config = c.config := by
  rcases hs : c.snowflakes[i]? with _ | s
  · simp [animateVisit, hs]
  · rcases hout : c.outOfBounds (updateFlake env i c.config.SWAY_RATE c.config.FALL_RATE s)
    · exact (animateVisit_notout env i c s hs hout).2.2
    · exact (animateVisit_out env i c s hs hout).2.2

theorem length_animateLoop (env : Env) :
    ∀ fuel i c, (animateLoop env fuel i c).snowflakes.length = c.snowflakes.length
  | 0, _, _ => rfl
  | fuel + 1, i, c => by
    unfold animateLoop
    split
    · rw [length_animateLoop env fuel (i + 1) (animateVisit env i c),
        length_animateVisit]
    · rfl

theorem length_animate (env : Env) (c : Controller) :
    (c.animate env).snowflakes.length = c.snowflakes.length :=
  length_animateLoop env c.snowflakes.length 0 c

/-! ### Claims C9, C3, C6, C7 -/

/-- C9: writing `v` to a snowflake's vertical (resp. horizontal) position
and immediately reading it back returns exactly `v`; the setter touches
only the element's own style entry for that coordinate (positions have no
shadow copy: the `Snowflake` state is exactly its element, and the getters
read only the style strings). -/
theorem claim_C9 (s : Snowflake) (v : ℚ) :
    (s.setTop v).top = v ∧ (s.setLeft v).left = v ∧
    (s.setTop v).element.styleLeft = s.element.styleLeft ∧
    (s.setTop v).element.attached = s.element.attached ∧
    (s.setLeft v).element.styleTop = s.element.styleTop ∧
    (s.setLeft v).element.attached = s.element.attached :=
  ⟨Snowflake.top_setTop s v, Snowflake.left_setLeft s v, rfl, rfl, rfl, rfl⟩

/-- C3: the per-snowflake update performed by `animate()` (through
`updateFlake`, note `Controller.animate` visits each live snowflake with
it) sets the new horizontal position to `1.0 * sin(currentTime * 0.005) +
(previousHorizontalPosition + swayRate)` — `env.timeAt k` being the
`Date.now()` reading at that update — and the new vertical position to
`previousVerticalPosition + fallRate`. -/
theorem claim_C3 (env : Env) (k : ℕ) (swayRate fallRate : ℚ) (s : Snowflake) :
    (updateFlake env k swayRate fallRate s).left =
      (1.0 : ℚ) * env.sin (env.timeAt k * (0.005 : ℚ)) + (s.left + swayRate) ∧
    (updateFlake env k swayRate fallRate s).top = s.top + fallRate :=
  ⟨updateFlake_left env k swayRate fallRate s, updateFlake_top env k swayRate fallRate s⟩

/-- C6: `resize(w2, h2)` with cached dimensions `(w1, h1)` shifts every
live snowflake's horizontal position by exactly `w2 - w1` and vertical
position by exactly `h2 - h1`, updates the cached dimensions to
`(w2, h2)`, and changes nothing else (count, configuration, active flag,
interval handle, detached elements). -/
theorem claim_C6 (c : Controller) (w h : ℚ) :
    (c.resize w h).snowflakes.map Snowflake.left =
      c.snowflakes.map (fun s => s.left + (w - c.docWidth)) ∧
    (c.resize w h).snowflakes.map Snowflake.top =
      c.snowflakes.map (fun s => s.top + (h - c.docHeight)) ∧
    (c.resize w h).docWidth = w ∧ (c.resize w h).docHeight = h ∧
    (c.resize w h).snowflakes.length = c.snowflakes.length ∧
    (c.resize w h).config = c.config ∧ (c.resize w h).active = c.active ∧
    (c.resize w h).interval = c.interval ∧
    (c.resize w h).detachedElems = c.detachedElems := by
  refine ⟨?_, ?_, rfl, rfl, by simp [Controller.resize], rfl, rfl, rfl, rfl⟩
  · show (c.snowflakes.map (resizeFlake (w - c.docWidth) (h - c.docHeight))).map
      Snowflake.left = _
    rw [List.map_map]
    exact List.map_congr_left fun s _ => resizeFlake_left _ _ s
  · show (c.snowflakes.map (resizeFlake (w - c.docWidth) (h - c.docHeight))).map
      Snowflake.top = _
    rw [List.map_map]
    exact List.map_congr_left fun s _ => resizeFlake_top _ _ s

/-- C7: after `clear()` the live snowflake count is exactly 0, and the
render element of every snowflake that was live before the call has been
detached from the render surface (it appears, detached, in the
removed-elements ghost record). -/
theorem claim_C7 (c : Controller) :
    c.clear.snowflakes.length = 0 ∧
    ∀ s ∈ c.snowflakes,
      s.element.remove ∈ c.clear.detachedElems ∧ (s.element.remove).attached = false := by
  refine ⟨rfl, fun s hs => ⟨?_, rfl⟩⟩
  exact List.mem_append_right _ (List.mem_map_of_mem (fun s => s.element.remove) hs)

/-- C7 witness: a concrete controller with one live snowflake. -/
theorem claim_C7_witness :
    ((⟨cfgC2, [Snowflake.make 0 5 4], 100, 100, true, true, []⟩ : Controller).clear.snowflakes.length = 0 ∧
      (Snowflake.make 0 5 4).element.remove ∈
        (⟨cfgC2, [Snowflake.make 0 5 4], 100, 100, true, true, []⟩ : Controller).clear.detachedElems ∧
      ((Snowflake.make 0 5 4).element.remove).attached = false) := by
  have h := claim_C7 ⟨cfgC2, [Snowflake.make 0 5 4], 100, 100, true, true, []⟩
  exact ⟨h.1, h.2 (Snowflake.make 0 5 4) (List.mem_singleton_self _)⟩

/-! ### Claim C2 (corrected) -/

/-- C2 counterexample: in the claimed scenario ({limit 1, fallRate 10,
swayRate 0}, viewport 100 × 100, single particle starting at vertical
position 0) the particle's vertical position after 11 ticks is 110, which
does not exceed 100 plus its intrinsic height 10, so it has not exited:
no removal has happened (no element was detached) and the particle has not
been replaced by a fresh one at position 0. -/
theorem claim_C2_counterexample :
    (tickN 11).ctrl.snowflakes.map Snowflake.top = [110] ∧
    ¬ ((110 : ℚ) > 100 + 10) ∧
    (tickN 11).ctrl.detachedElems.length = 0 := by
  refine ⟨by decide, by norm_num, by decide⟩

/-- C2 amended: in the scenario, the vertical position is 10 after one tick
and 110 after 11 ticks (still not exited, since exit requires top > 110);
during the 12th tick the particle exits (110 + 10 = 120 > 110), is removed
(one element is detached) and is replaced by a new particle at vertical
position 0. -/
theorem claim_C2_amended :
    (tickN 1).ctrl.snowflakes.map Snowflake.top = [10] ∧
    (tickN 11).ctrl.snowflakes.map Snowflake.top = [110] ∧
    (tickN 12).ctrl.snowflakes.map Snowflake.top = [0] ∧
    (tickN 12).ctrl.detachedElems.length = 1 ∧
    (tickN 12).ctrl.snowflakes.length = 1 := by
  refine ⟨by decide, by decide, by decide, by decide, by decide⟩

/-! ### Claim C4 -/

/-- C4: per visited particle, `animate()` updates the position first and
only then tests the exit bound on the updated value: the visit removes the
particle exactly when the updated position exceeds the cached bounds (the
detached-element record grows iff the test fires), the replacement is
spawned at vertical position 0 (the last element of the post-visit array),
and the controller's total particle count is the same before and after a
whole tick. -/
theorem claim_C4 :
    (∀ (env : Env) (c : Controller), (c.animate env).snowflakes.length = c.snowflakes.length) ∧
    (∀ (env : Env) (c : Controller) (i : ℕ) (s : Snowflake), c.snowflakes[i]? = some s →
      (c.outOfBounds (updateFlake env i c.config.SWAY_RATE c.config.FALL_RATE s) = false →
        (animateVisit env i c).snowflakes[i]? =
          some (updateFlake env i c.config.SWAY_RATE c.config.FALL_RATE s) ∧
        (animateVisit env i c).detachedElems = c.detachedElems ∧
        (animateVisit env i c).snowflakes.length = c.snowflakes.length) ∧
      (c.outOfBounds (updateFlake env i c.config.SWAY_RATE c.config.FALL_RATE s) = true →
        (animateVisit env i c).detachedElems =
          c.detachedElems ++
            [(updateFlake env i c.config.SWAY_RATE c.config.FALL_RATE s).element.remove] ∧
        ((animateVisit env i c).snowflakes.getLast?).map Snowflake.top = some 0 ∧
        (animateVisit env i c).snowflakes.length = c.snowflakes.length)) := by
  refine ⟨length_animate, fun env c i s hs => ⟨fun hout => ?_, fun hout => ?_⟩⟩
  · have h : i < c.snowflakes.length := (List.getElem?_eq_some_iff.mp hs).1
    obtain ⟨h1, h2, _⟩ := animateVisit_notout env i c s hs hout
    exact ⟨by rw [h1, List.getElem?_set_self h], h2, length_animateVisit env i c⟩
  · obtain ⟨h1, h2, _⟩ := animateVisit_out env i c s hs hout
    refine ⟨h2, ?_, length_animateVisit env i c⟩
    rw [h1, List.getLast?_concat]
    simp [Snowflake.top_make]

/-- Concrete controller whose single snowflake (vertical position 105)
exits on the next tick. -/
def cAnim : Controller := ⟨cfgC2, [Snowflake.make 0 105 4], 100, 100, true, true, []⟩

/-- C4 witness: the exit branch of the visit at a concrete controller. -/
theorem claim_C4_witness :
    cAnim.outOfBounds
      (updateFlake env0 0 cAnim.config.SWAY_RATE cAnim.config.FALL_RATE
        (Snowflake.make 0 105 4)) = true ∧
    (animateVisit env0 0 cAnim).detachedElems =
      cAnim.detachedElems ++
        [(updateFlake env0 0 cAnim.config.SWAY_RATE cAnim.config.FALL_RATE
            (Snowflake.make 0 105 4)).element.remove] ∧
    ((animateVisit env0 0 cAnim).snowflakes.getLast?).map Snowflake.top = some 0 ∧
    (animateVisit env0 0 cAnim).snowflakes.length = cAnim.snowflakes.length := by
  have h := (claim_C4.2 env0 cAnim 0 (Snowflake.make 0 105 4) (by decide)).2 (by decide)
  exact ⟨by decide, h.1, h.2.1, h.2.2⟩

/-! ### Claim C10 (corrected) -/

theorem animateVisit_getElem_lt (env : Env) (j : ℕ) (c : Controller) (k : ℕ)
    (hk : k < j) :
    (animateVisit env j c).snowflakes[k]? = c.snowflakes[k]? := by
  rcases hs : c.snowflakes[j]? with _ | s
  · simp [animateVisit, hs]
  · have h : j < c.snowflakes.length := (List.getElem?_eq_some_iff.mp hs).1
    rcases hout : c.outOfBounds (updateFlake env j c.config.SWAY_RATE c.config.FALL_RATE s)
    · rw [(animateVisit_notout env j c s hs hout).1,
        List.getElem?_set_ne (by omega)]
    · rw [(animateVisit_out env j c s hs hout).1,
        List.getElem?_append_left (by
          simp only [List.length_eraseIdx, List.length_set, if_pos h]
          omega),
        List.getElem?_eraseIdx_of_lt _ _ _ hk,
        List.getElem?_set_ne (by omega)]

/-- Once the iterator has passed position `k`, later visits never change
the entry at `k`. -/
theorem animateLoop_stable (env : Env) :
    ∀ fuel j c k, k < j →
      (animateLoop env fuel j c).snowflakes[k]? = c.snowflakes[k]?
  | 0, _, _, _, _ => rfl
  | fuel + 1, j, c, k, hk => by
    unfold animateLoop
    split
    · rw [animateLoop_stable env fuel (j + 1) (animateVisit env j c) k (by omega),
        animateVisit_getElem_lt env j c k hk]
    · rfl

/-- C10 counterexample: a controller with a single particle (vertical
position 105, fall rate 10) recycles it during the tick (one element is
detached), yet the replacement ends the tick at vertical position 0 — not
`fallRate = 10` as the claim asserts — because the recycled particle was
at the last index, so the appended replacement is never visited. -/
theorem claim_C10_counterexample :
    (cAnim.animate env0).snowflakes.map Snowflake.top = [0] ∧
    (cAnim.animate env0).detachedElems.length = 1 ∧
    cAnim.config.FALL_RATE = 10 ∧ ((0 : ℚ) ≠ 10) := by
  refine ⟨by decide, by decide, by decide, by norm_num⟩

/-- Controller with two snowflakes, the first of which (vertical position
105) exits on the next tick. -/
def cAnim2 : Controller :=
  ⟨⟨2, 4, 10, 0⟩, [Snowflake.make 0 105 4, Snowflake.make 0 50 4], 100, 100, true, true, []⟩

/-- C10 amended: when the visit at index `i` recycles its particle,
(1) if a particle follows (`i + 1 < length`), the rest of the tick leaves
at index `i` the particle that was at `i + 1`, unchanged — it is skipped by
the iterator; the appended replacement is visited later in the tick only in
that case; (2) if the recycled particle was at the last index, the
replacement is never visited and ends the tick at vertical position 0;
(3) in a concrete two-particle controller (fall rate 10) whose first
particle exits, the skipped second particle keeps vertical position 50 and
the visited replacement ends at `fallRate = 10`. -/
theorem claim_C10_amended :
    (∀ (env : Env) (c : Controller) (i : ℕ) (s : Snowflake),
      c.snowflakes[i]? = some s → i + 1 < c.snowflakes.length →
      c.outOfBounds (updateFlake env i c.config.SWAY_RATE c.config.FALL_RATE s) = true →
      (animateLoop env (c.snowflakes.length - i) i c).snowflakes[i]? =
        c.snowflakes[i + 1]?) ∧
    (∀ (env : Env) (c : Controller) (i : ℕ) (s : Snowflake),
      c.snowflakes[i]? = some s → i + 1 = c.snowflakes.length →
      c.outOfBounds (updateFlake env i c.config.SWAY_RATE c.config.FALL_RATE s) = true →
      (animateLoop env (c.snowflakes.length - i) i c).snowflakes[i]? =
        some (Snowflake.make (env.rand i * c.docWidth) 0 c.config.BLUR) ∧
      ((animateLoop env (c.snowflakes.length - i) i c).snowflakes[i]?).map Snowflake.top =
        some 0) ∧
    ((cAnim2.animate env0).snowflakes.map Snowflake.top = [50, 10] ∧
      cAnim2.config.FALL_RATE = 10) := by
  refine ⟨fun env c i s hs hnext hout => ?_, fun env c i s hs hlast hout => ?_,
    by decide, by decide⟩
  · have h : i < c.snowflakes.length := (List.getElem?_eq_some_iff.mp hs).1
    have hfuel : c.snowflakes.length - i = (c.snowflakes.length - (i + 1)) + 1 := by omega
    rw [hfuel]
    show (animateLoop env _ i c).snowflakes[i]? = _
    unfold animateLoop
    rw [if_pos h, animateLoop_stable env _ (i + 1) (animateVisit env i c) i (by omega),
      (animateVisit_out env i c s hs hout).1,
      List.getElem?_append_left (by
        simp only [List.length_eraseIdx, List.length_set,
          if_pos h]
        omega),
      List.getElem?_eraseIdx_of_ge _ _ _ le_rfl,
      List.getElem?_set_ne (by omega)]
  · have h : i < c.snowflakes.length := (List.getElem?_eq_some_iff.mp hs).1
    have hfuel : c.snowflakes.length - i = 1 := by omega
    rw [hfuel]
    have hvisit : (animateLoop env 1 i c) = animateVisit env i c := by
      unfold animateLoop
      rw [if_pos h]
      rfl
    have herase : ((c.snowflakes.set i
        (updateFlake env i c.config.SWAY_RATE c.config.FALL_RATE s)).eraseIdx i).length = i := by
      simp only [List.length_eraseIdx, List.length_set, if_pos h]
      omega
    have hget : (animateVisit env i c).snowflakes[i]? =
        some (Snowflake.make (env.rand i * c.docWidth) 0 c.config.BLUR) := by
      rw [(animateVisit_out env i c s hs hout).1,
        List.getElem?_append_right (by omega), herase]
      simp
    rw [hvisit]
    exact ⟨hget, by rw [hget]; simp [Snowflake.top_make]⟩

/-- C10 amended witness: the skip clause instantiated at the concrete
two-particle controller. -/
theorem claim_C10_amended_witness :
    cAnim2.snowflakes[0]? = some (Snowflake.make 0 105 4) ∧
    0 + 1 < cAnim2.snowflakes.length ∧
    cAnim2.outOfBounds
      (updateFlake env0 0 cAnim2.config.SWAY_RATE cAnim2.config.FALL_RATE
        (Snowflake.make 0 105 4)) = true ∧
    (animateLoop env0 (cAnim2.snowflakes.length - 0) 0 cAnim2).snowflakes[0]? =
      cAnim2.snowflakes[0 + 1]? :=
  ⟨by decide, by decide, by decide,
    claim_C10_amended.1 env0 cAnim2 0 (Snowflake.make 0 105 4)
      (by decide) (by decide) (by decide)⟩

/-! ### Claim C1 (corrected) -/

theorem config_animateLoop (env : Env) :
    ∀ fuel i c, (animateLoop env fuel i c).config = c.config
  | 0, _, _ => rfl
  | fuel + 1, i, c => by
    unfold animateLoop
    split
    · rw [config_animateLoop env fuel (i + 1) (animateVisit env i c), config_animateVisit]
    · rfl

theorem config_animate (env : Env) (c : Controller) :
    (c.animate env).config = c.config :=
  config_animateLoop env c.snowflakes.length 0 c

theorem length_spawn (env : Env) (k : ℕ) (c : Controller) :
    (c.spawn env k).snowflakes.length = c.snowflakes.length + 1 := by
  simp [Controller.spawn]

/-- Count invariant for the corrected C1: the live count is bounded by the
limit, at most one population task is pending, and a pending task's
counter dominates the live count and is below the limit. -/
def Inv (s : CState) : Prop :=
  s.ctrl.snowflakes.length ≤ s.ctrl.config.LIMIT ∧
  s.gens.length ≤ 1 ∧
  ∀ i ∈ s.gens, s.ctrl.snowflakes.length ≤ i ∧ i < s.ctrl.config.LIMIT

theorem inv_applyOp (op : Op) (s : CState) (hok : okOpB s op = true) (h : Inv s) :
    Inv (applyOp op s) := by
  obtain ⟨hcount, hlen, htask⟩ := h
  cases op with
  | tick env =>
    simp only [applyOp]
    split
    · exact ⟨by rw [length_animate, config_animate]; exact hcount, hlen,
        fun i hi => by rw [length_animate, config_animate]; exact htask i hi⟩
    · exact ⟨hcount, hlen, htask⟩
  | genResume env j =>
    simp only [applyOp, genResumeStep]
    split
    · exact ⟨hcount, hlen, htask⟩
    · next i hg =>
      have hj : j < s.gens.length := (List.getElem?_eq_some_iff.mp hg).1
      have hlen1 : s.gens.length = 1 := by omega
      have hj0 : j = 0 := by omega
      obtain ⟨a, ha⟩ := List.length_eq_one.mp hlen1
      have hai : a = i := by
        rw [ha, hj0] at hg
        simpa using hg
      subst hai
      obtain ⟨hci, hiL⟩ := htask a (List.getElem?_mem hg)
      rcases hact : s.ctrl.active with _ | _
      · rw [if_neg (by simp [hact])]
        exact ⟨hcount, le_trans (List.length_eraseIdx_le _ _) hlen,
          fun x hx => htask x (List.mem_of_mem_eraseIdx hx)⟩
      · rw [if_pos (by simp [hact])]
        split
        · next hlt =>
          simp only [Controller.spawn] at hlt
          refine ⟨?_, ?_, ?_⟩
          · simp [Controller.spawn]
            omega
          · simpa using hlen
          · intro x hx
            rw [ha, hj0, List.set_cons_zero, List.mem_singleton] at hx
            subst hx
            constructor
            · simp [Controller.spawn]
              omega
            · simpa using hlt
        · next hge =>
          refine ⟨?_, le_trans (List.length_eraseIdx_le _ _) hlen, ?_⟩
          · simp [Controller.spawn]
            omega
          · intro x hx
            rw [ha, hj0, List.eraseIdx_cons_zero] at hx
            exact absurd hx (List.not_mem_nil x)
  | resizeEv w h =>
    refine ⟨?_, hlen, fun i hi => ?_⟩
    · simpa [applyOp, Controller.resize] using hcount
    · simpa [applyOp, Controller.resize] using htask i hi
  | cmdStart =>
    simp only [applyOp, startStep]
    rcases hact : s.ctrl.active with _ | _
    · simp only [okOpB, hact, Bool.or_false] at hok
      have hgens : s.gens = [] := by simpa using hok
      rw [if_neg (by simp [hact])]
      split
      · next hlt =>
        refine ⟨hcount, by simp [hgens], fun i hi => ?_⟩
        rw [hgens, List.nil_append, List.mem_singleton] at hi
        subst hi
        exact ⟨le_rfl, hlt⟩
      · exact ⟨hcount, hlen, htask⟩
    · rw [if_pos (by simp [hact])]
      exact ⟨hcount, hlen, htask⟩
  | cmdStop => exact ⟨hcount, hlen, htask⟩
  | cmdClear =>
    exact ⟨Nat.zero_le _, hlen, fun i hi => ⟨Nat.zero_le _, (htask i hi).2⟩⟩
  | cmdSpawn env => simp [okOpB] at hok

theorem config_applyOp (op : Op) (s : CState) :
    (applyOp op s).ctrl.config = s.ctrl.config := by
  cases op with
  | tick env =>
    simp only [applyOp]
    split
    · exact config_animate _ _
    · rfl
  | genResume env j =>
    simp only [applyOp, genResumeStep]
    split
    · rfl
    · rcases s.ctrl.active with _ | _
      · rw [if_neg (by simp)]
      · rw [if_pos (by simp)]
        split <;> rfl
  | resizeEv w h => rfl
  | cmdStart =>
    simp only [applyOp, startStep]
    rcases s.ctrl.active with _ | _
    · rw [if_neg (by simp)]
      split <;> rfl
    · rw [if_pos (by simp)]
  | cmdStop => rfl
  | cmdClear => rfl
  | cmdSpawn env => rfl

theorem inv_runOps :
    ∀ (ops : List Op) (s : CState), Inv s → okTraceB s ops = true → Inv (runOps s ops)
  | [], _, h, _ => h
  | op :: rest, s, h, hok => by
    simp only [okTraceB, Bool.and_eq_true] at hok
    exact inv_runOps rest (applyOp op s) (inv_applyOp op s hok.1 h) hok.2

theorem config_runOps :
    ∀ (ops : List Op) (s : CState), (runOps s ops).ctrl.config = s.ctrl.config
  | [], _ => rfl
  | op :: rest, s => by
    rw [runOps, config_runOps rest (applyOp op s), config_applyOp]

theorem config_constructState (cfg : Config) (w h : ℚ) :
    (constructState cfg w h).ctrl.config = cfg := by
  simp only [constructState, startStep]
  split
  · rfl
  · split <;> rfl

theorem inv_constructState (cfg : Config) (w h : ℚ) :
    Inv (constructState cfg w h) := by
  simp only [constructState, startStep]
  split
  · next hact => simp at hact
  · split
    · next hlt =>
      exact ⟨Nat.zero_le _, by simp, fun i hi => by
        simp only [List.nil_append, List.mem_singleton] at hi
        subst hi
        exact ⟨le_rfl, by simpa using hlt⟩⟩
    · exact ⟨Nat.zero_le _, by simp, by simp⟩

/-- C1 counterexample: the claim quantifies over every operation sequence,
including the `spawn` broadcast; a constructed controller with limit 1
whose staggered population has completed holds 1 = limit snowflakes, and
`command("spawn")` (which has no capacity guard, src/snow.js lines 101-104
and 206-208) pushes it to 2 > 1. -/
theorem claim_C1_counterexample :
    cfgC2.LIMIT = 1 ∧
    (command env0 "spawn" [sC2]).map (fun l => l.map fun t => t.ctrl.snowflakes.length) =
      some [2] ∧
    ¬ (2 ≤ cfgC2.LIMIT) := by
  refine ⟨by decide, by decide, by decide⟩

/-- C1 amended: after construction completes, the live count stays at or
below the configured limit along every event-loop trace made of ticks,
population resume steps, resizes and the stop/clear broadcasts, with start
allowed whenever the controller is active (a no-op) or no population task
is pending; the `spawn` broadcast (and a restart racing a still-pending
population task, which launches a second concurrent population loop) can
exceed the limit and is excluded. -/
theorem claim_C1_amended (cfg : Config) (w h : ℚ) (ops : List Op)
    (hok : okTraceB (constructState cfg w h) ops = true) :
    (runOps (constructState cfg w h) ops).ctrl.snowflakes.length ≤ cfg.LIMIT := by
  have hinv := inv_runOps ops (constructState cfg w h) (inv_constructState cfg w h) hok
  have hcfg := config_runOps ops (constructState cfg w h)
  rw [config_constructState] at hcfg
  exact le_trans hinv.1 (Nat.le_of_eq (congrArg Config.LIMIT hcfg))

/-- A concrete event-loop trace allowed by the corrected C1 invariant. -/
def opsC1 : List Op := [Op.genResume env0 0, Op.tick env0, Op.cmdStop, Op.cmdStart]

/-- C1 amended witness: the invariant evaluated along a concrete trace. -/
theorem claim_C1_amended_witness :
    okTraceB (constructState cfgC2 100 100) opsC1 = true ∧
    (runOps (constructState cfgC2 100 100) opsC1).ctrl.snowflakes.length ≤ cfgC2.LIMIT :=
  ⟨by decide, claim_C1_amended cfgC2 100 100 opsC1 (by decide)⟩

/-! ### Claim C5 -/

theorem stopped_runOps :
    ∀ (ops : List Op) (s : CState), s.ctrl.active = false → s.ctrl.interval = false →
      (∀ op ∈ ops, spontaneousB op = true) → (runOps s ops).ctrl = s.ctrl
  | [], _, _, _, _ => rfl
  | op :: rest, s, hact, hint, hspont => by
    have hop := hspont op (List.mem_cons_self op rest)
    have hstep : (applyOp op s).ctrl = s.ctrl := by
      cases op with
      | tick env => simp [applyOp, hint]
      | genResume env j =>
        simp only [applyOp, genResumeStep]
        split
        · rfl
        · rw [if_neg (by simp [hact])]
      | resizeEv w h => simp [spontaneousB] at hop
      | cmdStart => simp [spontaneousB] at hop
      | cmdStop => simp [spontaneousB] at hop
      | cmdClear => simp [spontaneousB] at hop
      | cmdSpawn env => simp [spontaneousB] at hop
    rw [runOps, stopped_runOps rest (applyOp op s) (by rw [hstep]; exact hact)
      (by rw [hstep]; exact hint) (fun o ho => hspont o (List.mem_cons_of_mem op ho)),
      hstep]

/-- C5: after `stop()`, along any further sequence of event-loop-spontaneous
steps (interval ticks and staggered-population resume points) the
controller is untouched until `start()` is called again: every particle's
horizontal and vertical position is unchanged (the whole controller state,
snowflakes included, is equal), and in particular no resume point of the
population sequence spawns a particle. -/
theorem claim_C5 (s : CState) (ops : List Op)
    (hspont : ∀ op ∈ ops, spontaneousB op = true) :
    (runOps (stopStep s) ops).ctrl.snowflakes = (stopStep s).ctrl.snowflakes ∧
    (runOps (stopStep s) ops).ctrl = (stopStep s).ctrl := by
  have h := stopped_runOps ops (stopStep s) rfl rfl hspont
  exact ⟨congrArg Controller.snowflakes h, h⟩

/-- C5 witness: a concrete stopped state driven by a tick and a resume. -/
theorem claim_C5_witness :
    (∀ op ∈ [Op.tick env0, Op.genResume env0 0], spontaneousB op = true) ∧
    (runOps (stopStep sC2) [Op.tick env0, Op.genResume env0 0]).ctrl.snowflakes =
      (stopStep sC2).ctrl.snowflakes :=
  ⟨by decide, (claim_C5 sC2 [Op.tick env0, Op.genResume env0 0] (by decide)).1⟩

/-! ### Claim C8 -/

/-- C8: a command name the first registered controller does not expose as
an operation is a silent no-op of the manager dispatch: every controller's
state (particle set, active flag, cached dimensions — the whole state) is
unchanged. -/
theorem claim_C8 (env : Env) (cmd : String) (m : CState) (ms : List CState)
    (h1 : cmd ∉ ctrlFieldNames) (h2 : cmd ∉ ctrlMethodNames) :
    command env cmd (m :: ms) = some (m :: ms) := by
  simp only [command, if_neg h1, if_neg h2]

/-- C8 witness: `command("unknown")` on a one-controller manager. -/
theorem claim_C8_witness :
    command env0 "unknown" [sC2] = some [sC2] :=
  claim_C8 env0 "unknown" sC2 [] (by decide) (by decide)

end Snow
